import Mathlib

/-!
# Verification of the MUSE output-sink subsystem (`muse/outputs/sinks.py`)

This file is a shallow embedding of the output-sink module: the sink
factory with its recursive configuration normalization (`factory` /
`normalize`), the file-sink decorator (`sink_to_file`) with its filename
template resolution and overwrite policy, the per-format writers
(`to_csv` and friends), and the stateful `YearlyAggregate` accumulator.

Conventions of the embedding:
* Python dictionaries become association lists over `String` keys
  (insertion order preserved; `insert` updates in place, mirroring
  `d[k] = v`; keys are unique by construction in all configurations the
  source ever builds).
* Python configuration values become the inductive `CVal`
  (strings, integers, booleans, nested dicts), with Python truthiness
  embedded as `CVal.truthy`.
* pandas DataFrames become `DataFrame`: a list of rows, each carrying
  named index-level entries and named column cells, plus the column and
  index-level name lists and the optional `name` attribute the source
  reads and writes via `getattr`/assignment.
* File-system effects become explicit state passing over `FS` (a record
  of existing file paths and directory paths); Python exceptions become
  `Except` results.
* Exceptions raised by the code under test are modelled as `Except.error`
  values threaded to the caller.
-/

namespace Muse

/-! ## Association lists (Python dict embedding) -/

/-- `lookupA l k` is `d.get(k)` / `d[k]` on the dict embedding. -/
def lookupA (l : List (String × α)) (k : String) : Option α :=
  match l with
  | [] => none
  | (k', v) :: rest => if k' = k then some v else lookupA rest k

/-- `containsA l k` is `k in d`. -/
def containsA (l : List (String × α)) (k : String) : Bool :=
  match l with
  | [] => false
  | (k', _) :: rest => if k' = k then true else containsA rest k

/-- `insertA l k v` is `d[k] = v`: update in place if the key exists,
append at the end otherwise (Python dicts preserve insertion order). -/
def insertA (l : List (String × α)) (k : String) (v : α) : List (String × α) :=
  match l with
  | [] => [(k, v)]
  | (k', v') :: rest =>
      if k' = k then (k, v) :: rest else (k', v') :: insertA rest k v

/-- `eraseA l k` is `d.pop(k, None)` restricted to its removal effect. -/
def eraseA (l : List (String × α)) (k : String) : List (String × α) :=
  match l with
  | [] => []
  | (k', v') :: rest =>
      if k' = k then rest else (k', v') :: eraseA rest k

/-- `updateA l m` is `l.update(m)`: insert every entry of `m`, in order. -/
def updateA (l m : List (String × α)) : List (String × α) :=
  m.foldl (fun acc kv => insertA acc kv.1 kv.2) l

/-- The keys of a dict, in order. -/
def keysA (l : List (String × α)) : List String := l.map Prod.fst

/-- `hasCommonKey l m` is `len(set(l).intersection(m)) != 0`. -/
def hasCommonKey (l m : List (String × α)) : Bool :=
  (keysA l).any (fun k => containsA m k)

/-! ## Configuration values -/

/-- A Python configuration value as it appears in the sink settings:
a string, an integer, a boolean, or a nested dict. -/
inductive CVal where
  | str : String → CVal
  | int : Int → CVal
  | bool : Bool → CVal
  | map : List (String × CVal) → CVal
deriving Repr

/-- Python truthiness of a configuration value (`if not suffix: ...`,
`overwrite = params.pop("overwrite", False)` used in a branch). -/
def CVal.truthy : CVal → Bool
  | .str s => s ≠ ""
  | .int n => n ≠ 0
  | .bool b => b
  | .map m => ¬ m.isEmpty

/-- Python `str(...)` on the configuration values the source converts to
strings (filenames, sector labels, suffixes are strings in every
configuration the module builds; the other renderings are the obvious
ones and are never exercised by the claims). -/
def CVal.toStr : CVal → String
  | .str s => s
  | .int n => toString n
  | .bool b => if b then "True" else "False"
  | .map _ => ""

/-- `cvalStr? v` extracts a string value, `none` otherwise. -/
def cvalStr? : CVal → Option String
  | .str s => some s
  | _ => none

/-- Python `s.lower()` on ASCII text, character by character. -/
def pyLower (s : String) : String := String.mk (s.data.map Char.toLower)

/-! ## `Path(filename).suffix` -/

/-- `s.split("/")` as character lists (`[""]` on the empty string, like
Python). -/
def splitSlash : List Char → List (List Char)
  | [] => [[]]
  | c :: rest =>
      let r := splitSlash rest
      if c = '/' then [] :: r
      else
        match r with
        | [] => [[c]]
        | hd :: tl => (c :: hd) :: tl

/-- The `/`-separated components of a path. -/
def pathComponents (p : String) : List String :=
  (splitSlash p.data).map String.mk

/-- The final path component: the text after the last `/`. -/
def lastComponent (p : String) : String :=
  (pathComponents p).getLastD ""

/-- Index (from the start) of the last `.` in a list of characters. -/
def lastDotIdx (cs : List Char) : Option Nat :=
  match cs with
  | [] => none
  | c :: rest =>
      match lastDotIdx rest with
      | some i => some (i + 1)
      | none => if c = '.' then some 0 else none

/-- `Path(p).suffix`: the extension of the final component, i.e. the
text from the last dot onward, provided that dot is neither the first
nor the last character of the component (so `"b"`, `".hidden"` and
`"b."` all have suffix `""`, while `"a/b.tar.gz"` has suffix `".gz"`). -/
def pathSuffix (p : String) : String :=
  let name := (lastComponent p).data
  match lastDotIdx name with
  | none => ""
  | some i => if 0 < i ∧ i + 1 < name.length then String.mk (name.drop i) else ""

/-! ## `factory.normalize`

The source (`sinks.py`, `factory`):

    def normalize(params, filename=None):
        if isinstance(params, Mapping):
            params = dict(**params)
        elif isinstance(params, Text):
            params = dict(name=params)
        else:
            suffix = config.get("suffix", Path(filename).suffix if filename else "csv")
            if not suffix:
                suffix = "csv"
            params = dict(name=suffix)
        if "aggregate" in params:
            params["name"] = "aggregate"
            params["final_sink"] = dict(sink=normalize(params.pop("aggregate"), filename))
        return params

`normalize` closes over the outer `config` (after `sink` was popped)
only through `config.get("suffix", ...)`; that lookup is passed in here
as `cfgSuffix`.  In the string and default branches the freshly built
dict has only the key `"name"`, so the `"aggregate"` check can only fire
in the mapping branch; the embedding reflects that. -/

/-- The default sink name when the `sink` entry is absent (and not a
mapping or string): the outer configuration's `suffix` value if that key
is present, else the filename's path suffix if the filename is truthy,
else `"csv"`; a falsy result is replaced by `"csv"`.

Non-string filename values would raise `TypeError` in `Path(filename)`
and are outside the modelled domain (the factory extracts only string
filenames). -/
def defaultSinkName (cfgSuffix : Option CVal) (filename : Option String) : CVal :=
  let s : CVal :=
    match cfgSuffix with
    | some v => v
    | none =>
        .str (match filename with
              | some f => if f ≠ "" then pathSuffix f else "csv"
              | none => "csv")
  if s.truthy then s else .str "csv"

/-- Auxiliary size bound: a value found in a dict is smaller than the
dict, which drives the termination of `normalize` below. -/
theorem lookupA_sizeOf_lt (m : List (String × CVal)) (k : String) (v : CVal)
    (h : lookupA m k = some v) : sizeOf v < sizeOf m := by
  induction m with
  | nil => simp [lookupA] at h
  | cons hd tl ih =>
      obtain ⟨k', v'⟩ := hd
      by_cases hk : k' = k
      · simp [lookupA, hk] at h
        subst h
        simp
        omega
      · simp [lookupA, hk] at h
        have := ih h
        simp
        omega

/-- `factory.normalize`, with the enclosing `config.get("suffix", ...)`
lookup and the `filename` argument made explicit. -/
def normalize (cfgSuffix : Option CVal) (filename : Option String) :
    Option CVal → List (String × CVal)
  | some (.map m) =>
      match h : lookupA m "aggregate" with
      | some v =>
          insertA
            (eraseA (insertA m "name" (.str "aggregate")) "aggregate")
            "final_sink"
            (.map [("sink", .map (normalize cfgSuffix filename (some v)))])
      | none => m
  | some (.str s) => [("name", .str s)]
  | some (.int _) => [("name", defaultSinkName cfgSuffix filename)]
  | some (.bool _) => [("name", defaultSinkName cfgSuffix filename)]
  | none => [("name", defaultSinkName cfgSuffix filename)]
termination_by p => sizeOf p
decreasing_by
  have := lookupA_sizeOf_lt m "aggregate" v h
  simp
  omega

/-! ## The sink registry and `factory` -/

/-- The registered sink implementations of `sinks.py`. -/
inductive SinkImpl where
  | csvSink
  | netcdfSink
  | excelSink
  | aggregateSink
deriving DecidableEq, Repr

/-- `OUTPUT_SINKS`: the registry populated by the module's
`@register_output_sink` decorations: `"csv"` for `to_csv`,
`("netcdf", "nc")` for `to_netcdf`, `("excel", "xlsx")` for `to_excel`,
and `"aggregate"` for `YearlyAggregate` (the registrator stores the
implementation under each given name). -/
def OUTPUT_SINKS : List (String × SinkImpl) :=
  [("csv", .csvSink),
   ("netcdf", .netcdfSink), ("nc", .netcdfSink),
   ("excel", .excelSink), ("xlsx", .excelSink),
   ("aggregate", .aggregateSink)]

/-- The ways `factory` can raise before returning a sink:
`missingName` is the `KeyError` from `params.pop("name")`,
`duplicateSettings` the `ValueError("duplicate settings in output section")`,
`badName`/`emptyName` the `TypeError`/`IndexError` from `sink_name[0]`
on a non-string or empty name, and `unknownSink` the `KeyError` from
`OUTPUT_SINKS[sink_name]`. -/
inductive FacErr where
  | missingName
  | duplicateSettings
  | badName
  | emptyName
  | unknownSink
deriving DecidableEq, Repr

/-- The factory's outcome: which registered implementation was selected
and the parameter set bound to it (`sink(**params)` for a class,
`partial(sink, **params)` for a function). -/
structure Resolved where
  impl : SinkImpl
  params : List (String × CVal)
deriving Repr

/-- The outer configuration left after `config.pop("quantity", None)` and
`config.pop("sink", None)`. -/
def remainingConfig (parameters : List (String × CVal)) : List (String × CVal) :=
  eraseA (eraseA parameters "quantity") "sink"

/-- The normalized sink parameter set
`normalize(config.pop("sink", None), config.get("filename", None))`. -/
def normalizedParams (parameters : List (String × CVal)) : List (String × CVal) :=
  let config := remainingConfig parameters
  normalize (lookupA config "suffix")
    ((lookupA config "filename").bind cvalStr?)
    (lookupA (eraseA parameters "quantity") "sink")

/-- `factory(parameters, sector_name)`, parametrized by the registry so
that statements can express which outcomes are independent of any
registry lookup.  Mirrors the source order: normalize the sink spec, pop
its name, check for duplicate keys against the outer configuration,
merge, inject the sector, strip one leading dot from the name, look the
name up. -/
def factoryWith (registry : List (String × SinkImpl))
    (parameters : List (String × CVal)) (sectorName : String) :
    Except FacErr Resolved :=
  let config := remainingConfig parameters
  let params := normalizedParams parameters
  match lookupA params "name" with
  | none => .error .missingName
  | some nameVal =>
      let params := eraseA params "name"
      if hasCommonKey params config then .error .duplicateSettings
      else
        let params := updateA params config
        let params := insertA params "sector" (.str (pyLower sectorName))
        match nameVal with
        | .str s =>
            match s.data with
            | [] => .error .emptyName
            | c :: cs =>
                let sn := if c = '.' then String.mk cs else s
                match lookupA registry sn with
                | none => .error .unknownSink
                | some impl => .ok { impl := impl, params := params }
        | _ => .error .badName

/-- `factory` with the module's own registry. -/
def factory (parameters : List (String × CVal)) (sectorName : String) :
    Except FacErr Resolved :=
  factoryWith OUTPUT_SINKS parameters sectorName

/-! ## Tabular data (pandas DataFrame embedding) -/

/-- One row of a tabular container: the values of its named index levels
and of its named columns.  Cell values are integers — the only cell
reads the module performs are equality comparisons against the year. -/
structure DFRow where
  idx : List (String × Int)
  cells : List (String × Int)
deriving DecidableEq, Repr

/-- A pandas DataFrame as the module observes it: its column names, its
index level names (`dataframe.index.names`), its rows, and the optional
`name` attribute the module reads and writes via `getattr`/assignment. -/
structure DataFrame where
  columns : List String
  indexNames : List String
  rows : List DFRow
  name : Option String
deriving DecidableEq, Repr

/-- The argument of a sink call: either a labeled array (`xr.DataArray`,
carrying a conversion to tabular form and a name) or an already tabular
value.  The conversion itself is an assumed capability of the container
library, so it is a field, not re-implemented. -/
inductive SinkData where
  | array (toDataframe : DataFrame) (name : Option String)
  | frame (df : DataFrame)
deriving DecidableEq, Repr

/-- The tabular container with no columns, no index levels, no rows and
no name (used as a concrete instantiation in witnesses). -/
def emptyDF : DataFrame := ⟨[], [], [], none⟩

/-- `data.to_dataframe()` when the input is a labeled array, the input
itself otherwise (the `isinstance(data, xr.DataArray)` branch). -/
def SinkData.toDF : SinkData → DataFrame
  | .array d _ => d
  | .frame df => df

/-- `getattr(data, "name", None)`. -/
def SinkData.dataName : SinkData → Option String
  | .array _ n => n
  | .frame df => df.name

/-- `dataframe[dataframe[axis] == year]`: keep the rows whose `axis`
column equals `year`. -/
def filterByColumn (df : DataFrame) (axis : String) (year : Int) : DataFrame :=
  { df with rows := df.rows.filter (fun r => lookupA r.cells axis = some year) }

/-- `dataframe.xs(year, level=axis)`: keep the rows whose `axis` index
level equals `year` and drop that level; pandas raises `KeyError` when
no entry of the level equals `year`. -/
def xsLevel (df : DataFrame) (axis : String) (year : Int) :
    Except String DataFrame :=
  if df.rows.any (fun r => lookupA r.idx axis = some year) then
    .ok { df with
          indexNames := df.indexNames.filter (fun n => n ≠ axis),
          rows := (df.rows.filter (fun r => lookupA r.idx axis = some year)).map
            (fun r => { r with idx := r.idx.filter (fun kv => kv.1 ≠ axis) }) }
  else .error "KeyError"

/-- The per-call slice of `YearlyAggregate.__call__`: filter by `axis`
as a column if `axis` is a column, else as an index level if it is one,
else leave the data untouched. -/
def sliceForE (axis : String) (year : Int) (df : DataFrame) :
    Except String DataFrame :=
  if axis ∈ df.columns then .ok (filterByColumn df axis year)
  else if axis ∈ df.indexNames then xsLevel df axis year
  else .ok df

/-- The accumulation step: adopt the slice when the container is still
`None`, else `pd.concat((aggregate, slice))` — rows appended in order;
the concatenated frame is a fresh object carrying no `name` attribute,
and its column set is the ordered union of the two frames'. -/
def appendAgg (agg : Option DataFrame) (s : DataFrame) : DataFrame :=
  match agg with
  | none => s
  | some a =>
      { columns := a.columns ++ s.columns.filter (fun c => c ∉ a.columns),
        indexNames := a.indexNames,
        rows := a.rows ++ s.rows,
        name := none }

/-- `if getattr(data, "name", None) is not None: aggregate.name = data.name`. -/
def applyName (n : Option String) (df : DataFrame) : DataFrame :=
  match n with
  | some s => { df with name := some s }
  | none => df

/-- The state owned by one `YearlyAggregate` instance: the filtering
axis and the accumulated container (`None` until the first call). -/
structure AggState where
  axis : String
  agg : Option DataFrame
deriving DecidableEq, Repr

/-- `YearlyAggregate.__call__(data, year)` with the inner sink made an
explicit pure argument: convert to tabular form, slice to the current
year along the axis, extend (or adopt) the container, re-apply the
data's name, then delegate the entire container and the year to the
inner sink, returning its result.  An exception escaping the inner sink
is modelled by instantiating `ρ` with an `Except` type; the state
extension is performed before and independently of the sink's outcome. -/
def aggCall {ρ : Type} (sink : DataFrame → Int → ρ) (st : AggState)
    (data : SinkData) (year : Int) : Except String (AggState × ρ) :=
  match sliceForE st.axis year data.toDF with
  | .error e => .error e
  | .ok dfs =>
      let newAgg := applyName data.dataName (appendAgg st.agg dfs)
      .ok ({ st with agg := some newAgg }, sink newAgg year)

/-- Repeated calls to the same `YearlyAggregate` instance, in order. -/
def runAgg {ρ : Type} (sink : DataFrame → Int → ρ) (st : AggState) :
    List (SinkData × Int) → Except String AggState
  | [] => .ok st
  | (d, y) :: rest =>
      match aggCall sink st d y with
      | .error e => .error e
      | .ok (st', _) => runAgg sink st' rest

/-- The per-call slices of a sequence of calls (the year-filtered
tabular forms of each call's data). -/
def sliceList (axis : String) : List (SinkData × Int) →
    Except String (List DataFrame)
  | [] => .ok []
  | (d, y) :: rest =>
      match sliceForE axis y d.toDF with
      | .error e => .error e
      | .ok s =>
          match sliceList axis rest with
          | .error e => .error e
          | .ok l => .ok (s :: l)

/-- The rows of an optional container (`[]` for `None`). -/
def aggRows (agg : Option DataFrame) : List DFRow :=
  match agg with
  | none => []
  | some df => df.rows

/-! ## The file system and `str.format` -/

/-- The file-system state visible to `sink_to_file`: which file paths
and which directory paths exist.  Paths are the literal strings the
module computes (`Path(...)` normalization is the identity on every
path the claims exercise). -/
structure FS where
  files : List String
  dirs : List String
deriving DecidableEq, Repr

/-- `filename.unlink()`. -/
def unlinkFS (fs : FS) (p : String) : FS :=
  { fs with files := fs.files.filter (fun q => q ≠ p) }

/-- `mkdir` of a single directory with `exist_ok=True`. -/
def addDir (d : String) (ds : List String) : List String :=
  if d ∈ ds then ds else ds ++ [d]

/-- Create every directory of a list, in order, each with
`exist_ok=True`. -/
def addDirs (l : List String) (ds : List String) : List String :=
  l.foldl (fun acc d => addDir d acc) ds

/-- `Path(p).parent`: drop the final component (`"."` when there is
only one). -/
def parentDir (p : String) : String :=
  let cs := pathComponents p
  if cs.length ≤ 1 then "." else String.intercalate "/" cs.dropLast

/-- All ancestors of a directory path, shallowest first: for `"a/b"`,
`["a", "a/b"]`. -/
def pathAncestors (p : String) : List String :=
  let cs := pathComponents p
  (List.range cs.length).map (fun i => String.intercalate "/" (cs.take (i + 1)))

/-- `filename.parent.mkdir(parents=True, exist_ok=True)`: create the
directory and all its ancestors, never failing on existing ones. -/
def mkdirAncestors (p : String) (fs : FS) : FS :=
  { fs with dirs := addDirs (pathAncestors p) fs.dirs }

/-- The left-brace character (written by code so that no brace appears
inside a string literal). -/
def lbrace : Char := Char.ofNat 123

/-- The right-brace character. -/
def rbrace : Char := Char.ofNat 125

/-- The scanner behind `str.format`: outside a placeholder
(second argument `none`) characters are copied; a left brace opens a
placeholder whose key characters accumulate (in reverse) until the right
brace, at which point the key is looked up among the keyword arguments —
an unknown key is Python's `KeyError`, an unterminated placeholder its
`ValueError`.  Format specifications, `!` conversions and brace escapes
are not used by any template the module handles and are outside the
model. -/
def fmtGo (assign : List (String × String)) :
    List Char → Option (List Char) → Except String String
  | [], none => .ok ""
  | [], some _ => .error "Single brace encountered in format string"
  | c :: rest, none =>
      if c = lbrace then fmtGo assign rest (some [])
      else
        match fmtGo assign rest none with
        | .ok s => .ok (c.toString ++ s)
        | .error e => .error e
  | c :: rest, some acc =>
      if c = rbrace then
        match lookupA assign (String.mk acc.reverse) with
        | none => .error ("unknown placeholder: " ++ String.mk acc.reverse)
        | some v =>
            match fmtGo assign rest none with
            | .ok s => .ok (v ++ s)
            | .error e => .error e
      else fmtGo assign rest (some (c :: acc))

/-- `template.format(**assign)` for the plain named placeholders the
module uses. -/
def formatTemplate (template : String) (assign : List (String × String)) :
    Except String String :=
  fmtGo assign template.data none

/-! ## `sink_to_file` -/

/-- Python `str.title()` on ASCII text: the first letter of every
alphabetic run is upper-cased, the rest lower-cased. -/
def titleChars : List Char → Bool → List Char
  | [], _ => []
  | c :: rest, prevAlpha =>
      if c.isAlpha then
        (if prevAlpha then c.toLower else c.toUpper) :: titleChars rest true
      else c :: titleChars rest false

/-- `s.title()`. -/
def titleCase (s : String) : String := String.mk (titleChars s.data false)

/-- The process-wide environment `sink_to_file` reads: the working
directory (`Path().absolute()`) and `muse.defaults.DEFAULT_OUTPUT_DIRECTORY`. -/
structure Env where
  cwd : String
  defaultOutputDir : String

/-- The default filename template of `sink_to_file`. -/
def defaultTemplate : String :=
  "\x7bdefault_output_dir\x7d/\x7bSector\x7d\x7byear\x7d\x7bQuantity\x7d\x7bsuffix\x7d"

/-- The exact keyword arguments of the `filestring.format(...)` call, in
source order: `cwd`, `quantity`, `Quantity`, `sector`, `Sector`,
`year`, `suffix`, `default_output_dir`. -/
def recognizedAssignments (env : Env) (name sector : String) (year : Int)
    (lsuffix : String) : List (String × String) :=
  [("cwd", env.cwd),
   ("quantity", name),
   ("Quantity", titleCase name),
   ("sector", sector),
   ("Sector", titleCase sector),
   ("year", toString year),
   ("suffix", lsuffix),
   ("default_output_dir", env.defaultOutputDir)]

/-- `params.pop("filename", "{default_output_dir}/{Sector}{year}{Quantity}{suffix}")`
converted with `str`. -/
def filestringOf (config : List (String × CVal)) : String :=
  match lookupA config "filename" with
  | some v => v.toStr
  | none => defaultTemplate

/-- `params.pop("overwrite", False)` used as a boolean. -/
def overwriteOf (config : List (String × CVal)) : Bool :=
  match lookupA config "overwrite" with
  | some v => v.truthy
  | none => false

/-- `params.pop("sector", "")`. -/
def sectorOf (config : List (String × CVal)) : String :=
  match lookupA config "sector" with
  | some v => v.toStr
  | none => ""

/-- `lsuffix = params.pop("suffix", suffix)` followed by the
normalization `if lsuffix and lsuffix[0] != ".": lsuffix = "." + lsuffix`. -/
def lsuffixOf (suffix : String) (config : List (String × CVal)) : String :=
  let l := match lookupA config "suffix" with
           | some v => v.toStr
           | none => suffix
  match l.data with
  | [] => l
  | c :: _ => if c = '.' then l else "." ++ l

/-- The quantity's name with the module's fallback:
`"quantity" if getattr(quantity, "name", None) is None else str(quantity.name)`. -/
def quantityNameOf (q : SinkData) : String :=
  match q.dataName with
  | none => "quantity"
  | some n => n

/-- The parameter set left for the wrapped writer after `sink_to_file`
pops `filename`, `overwrite`, `sector` and `suffix`. -/
def residualParams (config : List (String × CVal)) : List (String × CVal) :=
  eraseA (eraseA (eraseA (eraseA config "filename") "overwrite") "sector") "suffix"

/-- The resolved output path:
`Path(filestring.format(cwd=..., quantity=..., Quantity=..., sector=...,
Sector=..., year=..., suffix=..., default_output_dir=...))`. -/
def resolveSinkPath (suffix : String) (env : Env) (q : SinkData) (year : Int)
    (config : List (String × CVal)) : Except String String :=
  formatTemplate (filestringOf config)
    (recognizedAssignments env (quantityNameOf q) (sectorOf config) year
      (lsuffixOf suffix config))

/-- The body of the function `sink_to_file(suffix)` wraps around a
writer: resolve the path; if it exists, delete it when `overwrite` is
truthy and raise `IOError` otherwise; create the parent directories
recursively; invoke the wrapped writer; return the resolved path.  The
writer is an explicit state-transforming argument; exceptions become
`Except.error` values paired with the (unchanged) file system. -/
def sinkToFile (suffix : String)
    (writer : SinkData → String → List (String × CVal) → FS → FS)
    (env : Env) (quantity : SinkData) (year : Int)
    (config : List (String × CVal)) (fs : FS) : FS × Except String String :=
  match resolveSinkPath suffix env quantity year config with
  | .error e => (fs, .error e)
  | .ok filename =>
      if filename ∈ fs.files then
        if overwriteOf config then
          let fs1 := mkdirAncestors (parentDir filename) (unlinkFS fs filename)
          (writer quantity filename (residualParams config) fs1, .ok filename)
        else
          (fs, .error ("File " ++ filename ++
            " already exists and overwrite argument has not been given."))
      else
        let fs1 := mkdirAncestors (parentDir filename) fs
        (writer quantity filename (residualParams config) fs1, .ok filename)

/-! ## `to_csv` -/

/-- The `quantity.to_csv(filename, **params)` invocation `to_csv`
performs, recorded as data: the tabular form written, the target file
and the keyword arguments handed to pandas. -/
structure CsvInvocation where
  frame : DataFrame
  file : String
  args : List (String × CVal)
deriving Repr

/-- The inner `to_csv` writer (after `sink_to_file` has resolved the
path): `params.update({"float_format": "%.11f"})`, convert a labeled
array to tabular form, then `quantity.to_csv(filename, **params)`. -/
def to_csv (quantity : SinkData) (filename : String)
    (params : List (String × CVal)) : CsvInvocation :=
  let params := insertA params "float_format" (.str "%.11f")
  { frame := quantity.toDF, file := filename, args := params }

/-! ## `YearlyAggregate.__init__` -/

/-- The errors `__init__` itself can raise while merging: `KeyError`
when a given `final_sink` has no `"sink"` entry, `AttributeError` when
that entry is not a dict (`final_sink["sink"].update(**kwargs)`). -/
inductive AggInitErr where
  | noSinkKey
  | sinkNotDict
deriving DecidableEq, Repr

/-- The first half of `YearlyAggregate.__init__`: build the inner sink
configuration — `dict(**kwargs)` when no `final_sink` is given,
otherwise `final_sink` with `final_sink["sink"].update(**kwargs)`. -/
def aggMergedSink (final_sink : Option (List (String × CVal)))
    (kwargs : List (String × CVal)) :
    Except AggInitErr (List (String × CVal)) :=
  match final_sink with
  | none => .ok kwargs
  | some fs =>
      match lookupA fs "sink" with
      | some (.map m) => .ok (insertA fs "sink" (.map (updateA m kwargs)))
      | some _ => .error .sinkNotDict
      | none => .error .noSinkKey

/-- Whether the merged inner sink configuration carries an explicit
overwrite policy: `"overwrite" in final_sink or
(isinstance(final_sink.get("sink", None), Mapping) and "overwrite" in final_sink["sink"])`. -/
def hasExplicitOverwrite (fs : List (String × CVal)) : Bool :=
  containsA fs "overwrite" ||
    (match lookupA fs "sink" with
     | some (.map m) => containsA m "overwrite"
     | _ => false)

/-- The second half of `__init__`: default the overwrite policy to
`True` unless it is explicit at either place. -/
def aggApplyOverwriteDefault (fs : List (String × CVal)) :
    List (String × CVal) :=
  if hasExplicitOverwrite fs then fs else insertA fs "overwrite" (.bool true)

/-- The configuration `YearlyAggregate.__init__` hands to
`factory(final_sink, sector_name=sector)` to build the inner sink. -/
def yearlyAggregateFactoryConfig (final_sink : Option (List (String × CVal)))
    (kwargs : List (String × CVal)) :
    Except AggInitErr (List (String × CVal)) :=
  match aggMergedSink final_sink kwargs with
  | .error e => .error e
  | .ok fs => .ok (aggApplyOverwriteDefault fs)

/-- A one-column row keyed by year, for witnesses. -/
def rowY (y : Int) : DFRow := ⟨[], [("year", y)]⟩

/-- A two-row frame with a `year` column, for witnesses. -/
def dfYears : DataFrame := ⟨["year"], [], [rowY 2020, rowY 2021], none⟩

/-- The slice of `dfYears` for 2020, for witnesses. -/
def dfSlice1 : DataFrame := ⟨["year"], [], [rowY 2020], none⟩

/-- A frame without a `year` column or index level, for witnesses. -/
def dfOther : DataFrame := ⟨["other"], [], [⟨[], [("other", 7)]⟩], none⟩

/-! ## Dictionary lemmas -/

theorem lookupA_insertA_self (l : List (String × α)) (k : String) (v : α) :
    lookupA (insertA l k v) k = some v := by
  induction l with
  | nil => simp [insertA, lookupA]
  | cons hd tl ih =>
      obtain ⟨k', v'⟩ := hd
      by_cases h : k' = k <;> simp [insertA, lookupA, h, ih]

theorem lookupA_insertA_ne (l : List (String × α)) (k k' : String) (v : α)
    (h : k ≠ k') : lookupA (insertA l k v) k' = lookupA l k' := by
  induction l with
  | nil => simp [insertA, lookupA, h]
  | cons hd tl ih =>
      obtain ⟨k₀, v₀⟩ := hd
      by_cases h₀ : k₀ = k
      · subst h₀; simp [insertA, lookupA, h]
      · simp only [insertA, if_neg h₀]
        by_cases h₁ : k₀ = k' <;> simp [lookupA, h₁, ih]

theorem lookupA_eraseA_ne (l : List (String × α)) (k k' : String)
    (h : k ≠ k') : lookupA (eraseA l k) k' = lookupA l k' := by
  induction l with
  | nil => simp [eraseA, lookupA]
  | cons hd tl ih =>
      obtain ⟨k₀, v₀⟩ := hd
      by_cases h₀ : k₀ = k
      · subst h₀; simp [eraseA, lookupA, h]
      · have h₂ : ¬ k' = k := fun hh => h hh.symm
        by_cases h₁ : k₀ = k' <;> simp [eraseA, lookupA, h₀, h₁, h₂, ih]

theorem containsA_of_lookupA (l : List (String × α)) (k : String) (v : α)
    (h : lookupA l k = some v) : containsA l k = true := by
  induction l with
  | nil => simp [lookupA] at h
  | cons hd tl ih =>
      obtain ⟨k₀, v₀⟩ := hd
      by_cases h₀ : k₀ = k
      · simp [containsA, h₀]
      · simp [lookupA, h₀] at h
        simp [containsA, h₀, ih h]

theorem mem_keysA_of_containsA (l : List (String × α)) (k : String)
    (h : containsA l k = true) : k ∈ keysA l := by
  induction l with
  | nil => simp [containsA] at h
  | cons hd tl ih =>
      obtain ⟨k₀, v₀⟩ := hd
      by_cases h₀ : k₀ = k
      · simp [keysA, h₀]
      · simp [containsA, h₀] at h
        simp [keysA] at ih ⊢
        exact Or.inr (ih h)

theorem hasCommonKey_of_both (l m : List (String × α)) (k : String)
    (hl : containsA l k = true) (hm : containsA m k = true) :
    hasCommonKey l m = true := by
  have hk := mem_keysA_of_containsA l k hl
  simp [hasCommonKey, List.any_eq_true]
  exact ⟨k, hk, hm⟩

/-- `normalize` on a mapping containing an `aggregate` key, written out:
set `name` to `"aggregate"`, pop `aggregate`, store the recursively
normalized popped value under `final_sink` as `dict(sink=...)`. -/
theorem normalize_aggregate_eq (cs : Option CVal) (fn : Option String)
    (m : List (String × CVal)) (v : CVal) (h : lookupA m "aggregate" = some v) :
    normalize cs fn (some (.map m)) =
      insertA (eraseA (insertA m "name" (.str "aggregate")) "aggregate")
        "final_sink" (.map [("sink", .map (normalize cs fn (some v)))]) := by
  rw [normalize]
  split
  · rename_i v' h'
    rw [h] at h'
    cases h'
    rfl
  · rename_i h'
    rw [h] at h'
    cases h'

/-! ## Claim theorems -/

/-- C5: for every sink spec whose normalized form contains an
`aggregate` key, the normalization result has sink name `"aggregate"`
and a `final_sink` parameter holding the recursively normalized nested
value (under the `sink` key) as the inner sink spec; the equation in the
first conjunct contains the recursive `normalize` call, so the wrapping
applies at arbitrary depth. -/
theorem normalize_aggregate_wrapping (cs : Option CVal) (fn : Option String)
    (m : List (String × CVal)) (v : CVal)
    (h : lookupA m "aggregate" = some v) :
    normalize cs fn (some (.map m)) =
      insertA (eraseA (insertA m "name" (.str "aggregate")) "aggregate")
        "final_sink" (.map [("sink", .map (normalize cs fn (some v)))]) ∧
    lookupA (normalize cs fn (some (.map m))) "name" =
      some (.str "aggregate") ∧
    lookupA (normalize cs fn (some (.map m))) "final_sink" =
      some (.map [("sink", .map (normalize cs fn (some v)))]) := by
  refine ⟨normalize_aggregate_eq cs fn m v h, ?_, ?_⟩
  · rw [normalize_aggregate_eq cs fn m v h]
    rw [lookupA_insertA_ne _ _ _ _ (by decide)]
    rw [lookupA_eraseA_ne _ _ _ (by decide)]
    exact lookupA_insertA_self _ _ _
  · rw [normalize_aggregate_eq cs fn m v h]
    exact lookupA_insertA_self _ _ _

/-- Witness for C5 at a depth-two nesting
`{"aggregate": {"aggregate": "csv"}}`. -/
theorem normalize_aggregate_wrapping_witness :
    normalize none none
        (some (.map [("aggregate", .map [("aggregate", .str "csv")])])) =
      insertA
        (eraseA
          (insertA [("aggregate", CVal.map [("aggregate", CVal.str "csv")])]
            "name" (.str "aggregate"))
          "aggregate")
        "final_sink"
        (.map [("sink",
          .map (normalize none none
            (some (.map [("aggregate", .str "csv")]))))]) ∧
    lookupA (normalize none none
        (some (.map [("aggregate", .map [("aggregate", .str "csv")])])))
        "name" = some (.str "aggregate") ∧
    lookupA (normalize none none
        (some (.map [("aggregate", .map [("aggregate", .str "csv")])])))
        "final_sink" =
      some (.map [("sink",
        .map (normalize none none
          (some (.map [("aggregate", .str "csv")]))))]) :=
  normalize_aggregate_wrapping none none _ _ rfl

/-- C2 (amended): whenever the normalized sink spec does contain a sink
name and some key occurs both in the normalized sink-specific parameter
set and in the remaining outer configuration, the factory raises
`ValueError` — for every registry, so before (and independently of) any
sink lookup, construction or invocation, and without any file-system
interaction (the factory is a pure configuration computation). -/
theorem factory_duplicate_settings_error (registry : List (String × SinkImpl))
    (parameters : List (String × CVal)) (sectorName : String)
    (nv : CVal) (k : String)
    (hname : lookupA (normalizedParams parameters) "name" = some nv)
    (hk : containsA (eraseA (normalizedParams parameters) "name") k = true)
    (hc : containsA (remainingConfig parameters) k = true) :
    factoryWith registry parameters sectorName = .error .duplicateSettings := by
  have hdup := hasCommonKey_of_both _ _ k hk hc
  simp [factoryWith, hname, hdup]

/-- Witness for C2 (amended): `filename` appears both inside the sink
mapping and at the outer level, and the factory fails with the
duplicate-settings `ValueError`. -/
theorem factory_duplicate_settings_error_witness :
    factoryWith OUTPUT_SINKS
      [("filename", CVal.str "x"),
       ("sink", CVal.map [("name", CVal.str "csv"),
                          ("filename", CVal.str "y")])] "default"
      = .error .duplicateSettings :=
  factory_duplicate_settings_error OUTPUT_SINKS _ "default" (.str "csv")
    "filename"
    (by simp [normalizedParams, remainingConfig, normalize, lookupA, eraseA,
          cvalStr?])
    (by simp [normalizedParams, remainingConfig, normalize, lookupA, eraseA,
          containsA, cvalStr?])
    (by simp [remainingConfig, lookupA, eraseA, containsA])

/-- C2 counterexample: a configuration with a key (`filename`) occurring
both in the sink-specific parameters and in the outer configuration for
which the factory does *not* raise the duplicate-settings `ValueError`:
the sink mapping has no `name` entry, so `params.pop("name")` raises
`KeyError` first. -/
theorem factory_duplicate_key_keyerror_counterexample :
    factory [("filename", CVal.str "x"),
             ("sink", CVal.map [("filename", CVal.str "y")])] "default"
      = .error .missingName ∧
    ¬ (factory [("filename", CVal.str "x"),
                ("sink", CVal.map [("filename", CVal.str "y")])] "default"
        = .error .duplicateSettings) := by
  have h : factory [("filename", CVal.str "x"),
             ("sink", CVal.map [("filename", CVal.str "y")])] "default"
      = .error .missingName := by
    simp [factory, factoryWith, normalizedParams, remainingConfig, normalize,
      lookupA, eraseA, cvalStr?]
  exact ⟨h, by rw [h]; simp⟩

/-- C4 (amended): the `sink` sub-value is normalized as follows — a
mapping (without an `aggregate` key) is used as-is; a bare string is the
sink name; if absent, the name is taken from the configuration's
`suffix` value when that key is present (falling back to `"csv"` when it
is falsy), otherwise inferred from the filename's suffix, defaulting to
`"csv"` when the filename is absent or empty or has no suffix; and the
bare-string shorthand `"nc"` resolves to the NetCDF-family writer. -/
theorem normalize_sink_spec_resolution (cs : Option CVal) (sv : CVal)
    (fn : Option String) (s : String) (m : List (String × CVal)) (f : String)
    (hm : lookupA m "aggregate" = none) (hf : f ≠ "") :
    normalize cs fn (some (.map m)) = m ∧
    normalize cs fn (some (.str s)) = [("name", .str s)] ∧
    normalize (some sv) fn none =
      [("name", if sv.truthy then sv else .str "csv")] ∧
    normalize none (some f) none =
      [("name", .str (if pathSuffix f = "" then "csv" else pathSuffix f))] ∧
    normalize none none none = [("name", .str "csv")] ∧
    (factory [("sink", CVal.str "nc")] "default").map Resolved.impl
      = .ok .netcdfSink := by
  refine ⟨?_, ?_, ?_, ?_, ?_, ?_⟩
  · rw [normalize]
    split
    · rename_i v' h'
      rw [hm] at h'
      cases h'
    · rfl
  · rw [normalize]
  · rw [normalize]
    simp [defaultSinkName]
  · rw [normalize]
    simp only [defaultSinkName]
    by_cases hs : pathSuffix f = "" <;> simp [hf, hs, CVal.truthy]
  · rw [normalize]
    rfl
  · simp [factory, factoryWith, normalizedParams, remainingConfig, normalize,
      defaultSinkName, CVal.truthy, lookupA, eraseA, insertA, updateA,
      hasCommonKey, keysA, containsA, cvalStr?, OUTPUT_SINKS, pyLower,
      Except.map]

/-- Witness for C4 (amended) at concrete inputs. -/
theorem normalize_sink_spec_resolution_witness :
    normalize none none (some (.map [("x", CVal.int 1)])) =
        [("x", CVal.int 1)] ∧
    normalize none none (some (.str "csv")) = [("name", .str "csv")] ∧
    normalize (some (.str "nc")) none none =
      [("name", if (CVal.str "nc").truthy then CVal.str "nc"
                else .str "csv")] ∧
    normalize none (some "out.nc") none =
      [("name", .str (if pathSuffix "out.nc" = "" then "csv"
                      else pathSuffix "out.nc"))] ∧
    normalize none none none = [("name", .str "csv")] ∧
    (factory [("sink", CVal.str "nc")] "default").map Resolved.impl
      = .ok .netcdfSink :=
  normalize_sink_spec_resolution none (.str "nc") none "csv"
    [("x", CVal.int 1)] "out.nc" rfl (by decide)

/-- C4 counterexample: with `sink` absent, a configuration whose
`suffix` entry (`"nc"`) disagrees with the filename's suffix (`.csv`)
resolves to the NetCDF-family writer, not to the `csv` writer the claim
("inferred from the configured filename's suffix") prescribes. -/
theorem factory_suffix_overrides_filename_counterexample :
    (factory [("suffix", CVal.str "nc"), ("filename", CVal.str "out.csv")]
        "default").map Resolved.impl = .ok SinkImpl.netcdfSink ∧
    ¬ ((factory [("suffix", CVal.str "nc"), ("filename", CVal.str "out.csv")]
        "default").map Resolved.impl = .ok SinkImpl.csvSink) := by
  have h : factory [("suffix", CVal.str "nc"), ("filename", CVal.str "out.csv")]
      "default"
      = .ok { impl := SinkImpl.netcdfSink,
              params := [("suffix", CVal.str "nc"),
                         ("filename", CVal.str "out.csv"),
                         ("sector", CVal.str "default")] } := by
    simp [factory, factoryWith, normalizedParams, remainingConfig, normalize,
      defaultSinkName, CVal.truthy, lookupA, eraseA, insertA, updateA,
      hasCommonKey, keysA, containsA, cvalStr?, OUTPUT_SINKS, pyLower]
  rw [h]
  simp [Except.map]

/-- C6 (amended): the delimited-text writer always hands pandas the
float format `"%.11f"` (11 digits after the decimal point):
`params.update({"float_format": "%.11f"})` runs after the caller's
options are received, so it also *overrides* any caller-supplied
`float_format` rather than being overridden by it. -/
theorem to_csv_float_format_forced (q : SinkData) (filename : String)
    (params : List (String × CVal)) :
    lookupA (to_csv q filename params).args "float_format"
      = some (.str "%.11f") := by
  simp [to_csv]
  exact lookupA_insertA_self _ _ _

/-- The name re-application leaves the rows untouched. -/
theorem applyName_rows (n : Option String) (df : DataFrame) :
    (applyName n df).rows = df.rows := by
  cases n <;> simp [applyName]

/-- Adopting or concatenating appends the slice's rows to the container's. -/
theorem appendAgg_rows (agg : Option DataFrame) (s : DataFrame) :
    (appendAgg agg s).rows = aggRows agg ++ s.rows := by
  cases agg <;> simp [appendAgg, aggRows]

/-- The accumulation invariant of repeated `YearlyAggregate` calls: a
successful run preserves the axis and appends, in call order, the rows
of each call's filtered slice to the container. -/
theorem runAgg_rows {ρ : Type} (sink : DataFrame → Int → ρ) :
    ∀ (calls : List (SinkData × Int)) (st st' : AggState),
      runAgg sink st calls = .ok st' →
      st'.axis = st.axis ∧
      ∃ slices, sliceList st.axis calls = .ok slices ∧
        aggRows st'.agg = aggRows st.agg ++ (slices.map DataFrame.rows).flatten := by
  intro calls
  induction calls with
  | nil =>
      intro st st' h
      simp [runAgg] at h
      subst h
      exact ⟨rfl, [], rfl, by simp⟩
  | cons c rest ih =>
      intro st st' h
      obtain ⟨d, y⟩ := c
      simp only [runAgg] at h
      cases hc : aggCall sink st d y with
      | error e => rw [hc] at h; cases h
      | ok p =>
          rw [hc] at h
          obtain ⟨st1, r⟩ := p
          simp only [aggCall] at hc
          cases hs : sliceForE st.axis y d.toDF with
          | error e => rw [hs] at hc; cases hc
          | ok dfs =>
              rw [hs] at hc
              simp only [Except.ok.injEq, Prod.mk.injEq] at hc
              obtain ⟨hst1, _hr⟩ := hc
              obtain ⟨hax, slices', hsl, hrows⟩ := ih st1 st' h
              have hax1 : st1.axis = st.axis := by rw [← hst1]
              refine ⟨by rw [hax, hax1], dfs :: slices', ?_, ?_⟩
              · simp only [sliceList, hs]
                rw [hax1] at hsl
                rw [hsl]
              · have hstep : aggRows st1.agg = aggRows st.agg ++ dfs.rows := by
                  rw [← hst1]
                  simp [aggRows, applyName_rows, appendAgg_rows]
                rw [hrows, hstep]
                simp

/-- C1: for every sequence of calls to a `YearlyAggregate` starting from
the empty state, the accumulated container's rows equal the
concatenation, in call order, of the per-call year-filtered slices'
rows; and each single call adopts/extends the container with its
filtered slice (`appendAgg` on an empty container *is* the slice) and
delegates the entire accumulated container with the current year to the
inner sink, returning the inner sink's result. -/
theorem yearlyAggregate_accumulates_filtered_slices {ρ : Type}
    (sink : DataFrame → Int → ρ) (axis : String)
    (calls : List (SinkData × Int)) (st' : AggState)
    (st stc : AggState) (d : SinkData) (y : Int) (r : ρ)
    (hrun : runAgg sink ⟨axis, none⟩ calls = .ok st')
    (hcall : aggCall sink st d y = .ok (stc, r)) :
    (∃ slices, sliceList axis calls = .ok slices ∧
        aggRows st'.agg = (slices.map DataFrame.rows).flatten) ∧
    (∃ s, sliceForE st.axis y d.toDF = .ok s ∧
        stc = { st with
                agg := some (applyName d.dataName (appendAgg st.agg s)) } ∧
        r = sink (applyName d.dataName (appendAgg st.agg s)) y) := by
  constructor
  · obtain ⟨hax, slices, hsl, hrows⟩ := runAgg_rows sink calls _ st' hrun
    exact ⟨slices, hsl, by simpa [aggRows] using hrows⟩
  · simp only [aggCall] at hcall
    cases hs : sliceForE st.axis y d.toDF with
    | error e => rw [hs] at hcall; cases hcall
    | ok dfs =>
        rw [hs] at hcall
        simp only [Except.ok.injEq, Prod.mk.injEq] at hcall
        exact ⟨dfs, rfl, hcall.1.symm, hcall.2.symm⟩

/-- Witness for C1: two calls with years 2020 and 2021 over `dfYears`,
with a row-counting inner sink. -/
theorem yearlyAggregate_accumulates_filtered_slices_witness :
    (∃ slices,
        sliceList "year"
            [(SinkData.frame dfYears, 2020), (SinkData.frame dfYears, 2021)]
          = .ok slices ∧
        aggRows (AggState.mk "year"
            (some ⟨["year"], [], [rowY 2020, rowY 2021], none⟩)).agg
          = (slices.map DataFrame.rows).flatten) ∧
    (∃ s, sliceForE (AggState.mk "year" none).axis 2020
            (SinkData.frame dfYears).toDF = .ok s ∧
        AggState.mk "year" (some dfSlice1) =
          { AggState.mk "year" none with
            agg := some (applyName (SinkData.frame dfYears).dataName
              (appendAgg (AggState.mk "year" none).agg s)) } ∧
        1 = (fun df _ => df.rows.length)
              (applyName (SinkData.frame dfYears).dataName
                (appendAgg (AggState.mk "year" none).agg s)) 2020) :=
  yearlyAggregate_accumulates_filtered_slices
    (fun df _ => df.rows.length) "year"
    [(SinkData.frame dfYears, 2020), (SinkData.frame dfYears, 2021)]
    (AggState.mk "year" (some ⟨["year"], [], [rowY 2020, rowY 2021], none⟩))
    (AggState.mk "year" none) (AggState.mk "year" (some dfSlice1))
    (SinkData.frame dfYears) 2020 1 rfl rfl

/-- C9: a call on which the inner sink fails still extends the
accumulated container with the call's filtered slice — the state
component of the call is the same for every inner sink, so the
extension happens before and independently of the inner sink's outcome,
and the inner sink's error is returned to the caller unchanged. -/
theorem yearlyAggregate_error_propagation {ε δ : Type} (e : ε)
    (st : AggState) (d : SinkData) (y : Int) (s : DataFrame)
    (sink₂ : DataFrame → Int → Except ε δ)
    (h : sliceForE st.axis y d.toDF = .ok s) :
    aggCall (fun _ _ => (Except.error e : Except ε δ)) st d y
      = .ok ({ st with
               agg := some (applyName d.dataName (appendAgg st.agg s)) },
             Except.error e) ∧
    (aggCall sink₂ st d y).map Prod.fst
      = (aggCall (fun _ _ => (Except.error e : Except ε δ)) st d y).map
          Prod.fst := by
  constructor
  · simp [aggCall, h]
  · simp [aggCall, h, Except.map]

/-- Witness for C9 over `dfYears`, a failing sink and an `ok` sink. -/
theorem yearlyAggregate_error_propagation_witness :
    aggCall (fun _ _ => (Except.error "boom" : Except String String))
        (AggState.mk "year" none) (SinkData.frame dfYears) 2020
      = .ok ({ AggState.mk "year" none with
               agg := some (applyName (SinkData.frame dfYears).dataName
                 (appendAgg (AggState.mk "year" none).agg dfSlice1)) },
             Except.error "boom") ∧
    (aggCall (fun _ _ => (Except.ok "done" : Except String String))
        (AggState.mk "year" none) (SinkData.frame dfYears) 2020).map Prod.fst
      = (aggCall (fun _ _ => (Except.error "boom" : Except String String))
          (AggState.mk "year" none) (SinkData.frame dfYears) 2020).map
            Prod.fst :=
  yearlyAggregate_error_propagation "boom" (AggState.mk "year" none)
    (SinkData.frame dfYears) 2020 dfSlice1
    (fun _ _ => (Except.ok "done" : Except String String)) rfl

/-- C10: when the configured axis is neither a column of the incoming
tabular data nor a named index level, no filtering is applied — the
entire data is the slice, it is accumulated, and the whole container is
passed to the inner sink; neither an empty slice nor an error occurs. -/
theorem yearlyAggregate_unknown_axis_no_filtering {ρ : Type}
    (sink : DataFrame → Int → ρ) (st : AggState) (d : SinkData) (y : Int)
    (h1 : st.axis ∉ d.toDF.columns) (h2 : st.axis ∉ d.toDF.indexNames) :
    sliceForE st.axis y d.toDF = .ok d.toDF ∧
    aggCall sink st d y
      = .ok ({ st with
               agg := some (applyName d.dataName (appendAgg st.agg d.toDF)) },
             sink (applyName d.dataName (appendAgg st.agg d.toDF)) y) := by
  have hs : sliceForE st.axis y d.toDF = .ok d.toDF := by
    simp [sliceForE, h1, h2]
  exact ⟨hs, by simp [aggCall, hs]⟩

/-- Witness for C10: axis `year` against a frame with only an `other`
column; the whole frame flows through unfiltered. -/
theorem yearlyAggregate_unknown_axis_no_filtering_witness :
    sliceForE (AggState.mk "year" none).axis 2020
        (SinkData.frame dfOther).toDF = .ok (SinkData.frame dfOther).toDF ∧
    aggCall (fun df _ => df.rows.length) (AggState.mk "year" none)
        (SinkData.frame dfOther) 2020
      = .ok ({ AggState.mk "year" none with
               agg := some (applyName (SinkData.frame dfOther).dataName
                 (appendAgg (AggState.mk "year" none).agg
                   (SinkData.frame dfOther).toDF)) },
             (fun df _ => df.rows.length)
               (applyName (SinkData.frame dfOther).dataName
                 (appendAgg (AggState.mk "year" none).agg
                   (SinkData.frame dfOther).toDF)) 2020) :=
  yearlyAggregate_unknown_axis_no_filtering (fun df _ => df.rows.length)
    (AggState.mk "year" none) (SinkData.frame dfOther) 2020
    (by decide) (by decide)

/-- C8: whenever `YearlyAggregate.__init__` succeeds in merging the
keyword overrides into the inner sink configuration, the configuration
it passes to the inner `factory` call carries `overwrite = True` exactly
when the merged configuration specified no explicit overwrite policy —
neither at the top level nor inside its nested `sink` mapping
(`hasExplicitOverwrite`) — and is passed through completely unchanged
otherwise. -/
theorem yearlyAggregate_overwrite_default
    (final_sink : Option (List (String × CVal)))
    (kwargs merged c : List (String × CVal))
    (hm : aggMergedSink final_sink kwargs = .ok merged)
    (hc : yearlyAggregateFactoryConfig final_sink kwargs = .ok c) :
    (hasExplicitOverwrite merged = false →
        c = insertA merged "overwrite" (.bool true) ∧
        lookupA c "overwrite" = some (.bool true)) ∧
    (hasExplicitOverwrite merged = true → c = merged) := by
  simp only [yearlyAggregateFactoryConfig, hm] at hc
  cases hc
  constructor
  · intro hx
    simp [aggApplyOverwriteDefault, hx, lookupA_insertA_self]
  · intro hx
    simp [aggApplyOverwriteDefault, hx]

/-- Witness for C8: a `final_sink` without any overwrite entry gets
`overwrite = True` appended before the inner factory call. -/
theorem yearlyAggregate_overwrite_default_witness :
    (hasExplicitOverwrite [("sink", CVal.map [("name", CVal.str "csv")])]
        = false →
      [("sink", CVal.map [("name", CVal.str "csv")]),
       ("overwrite", CVal.bool true)]
        = insertA [("sink", CVal.map [("name", CVal.str "csv")])]
            "overwrite" (.bool true) ∧
      lookupA [("sink", CVal.map [("name", CVal.str "csv")]),
               ("overwrite", CVal.bool true)] "overwrite"
        = some (.bool true)) ∧
    (hasExplicitOverwrite [("sink", CVal.map [("name", CVal.str "csv")])]
        = true →
      [("sink", CVal.map [("name", CVal.str "csv")]),
       ("overwrite", CVal.bool true)]
        = [("sink", CVal.map [("name", CVal.str "csv")])]) :=
  yearlyAggregate_overwrite_default
    (some [("sink", CVal.map [("name", CVal.str "csv")])]) []
    [("sink", CVal.map [("name", CVal.str "csv")])]
    [("sink", CVal.map [("name", CVal.str "csv")]),
     ("overwrite", CVal.bool true)] rfl rfl

theorem mem_addDir (x d : String) (ds : List String) (h : x ∈ ds) :
    x ∈ addDir d ds := by
  by_cases hd : d ∈ ds <;> simp [addDir, hd, h]

theorem self_mem_addDir (d : String) (ds : List String) : d ∈ addDir d ds := by
  by_cases hd : d ∈ ds <;> simp [addDir, hd]

theorem mem_addDirs (x : String) (l ds : List String) (h : x ∈ ds) :
    x ∈ addDirs l ds := by
  induction l generalizing ds with
  | nil => simpa [addDirs]
  | cons d rest ih =>
      simp only [addDirs, List.foldl_cons] at ih ⊢
      exact ih _ (mem_addDir _ _ _ h)

theorem mem_addDirs_self (x : String) (l ds : List String) (h : x ∈ l) :
    x ∈ addDirs l ds := by
  induction l generalizing ds with
  | nil => cases h
  | cons d rest ih =>
      simp only [addDirs, List.foldl_cons]
      rcases List.mem_cons.mp h with rfl | hx
      · exact mem_addDirs _ _ _ (self_mem_addDir _ _)
      · exact ih _ hx

theorem addDirs_of_all_mem (l ds : List String) (h : ∀ d ∈ l, d ∈ ds) :
    addDirs l ds = ds := by
  induction l with
  | nil => simp [addDirs]
  | cons d rest ih =>
      simp only [addDirs, List.foldl_cons]
      have hd : addDir d ds = ds := by simp [addDir, h d (by simp)]
      rw [hd]
      exact ih (fun x hx => h x (by simp [hx]))

/-- Creating the same directory chain twice is the same as creating it
once — directory creation never fails on existing directories. -/
theorem addDirs_idem (l ds : List String) :
    addDirs l (addDirs l ds) = addDirs l ds :=
  addDirs_of_all_mem l _ (fun d hd => mem_addDirs_self d l ds hd)

/-- C3: the overwrite policy of a file sink call.  With a resolved path:
`overwrite` defaults to false; if the path already exists and overwrite
is false the call fails with the already-exists error leaving the file
system untouched, identically for every wrapped writer (so no writer is
invoked); if it exists and overwrite is true the file is unlinked before
the parent directories are created and the writer runs; if it does not
exist the writer runs after the parent directories are created; in the
non-error cases the call returns the resolved path; and parent-directory
creation covers every ancestor and is idempotent (no error when the
directories already exist). -/
theorem sink_to_file_overwrite_policy (suffix : String)
    (writer w₂ : SinkData → String → List (String × CVal) → FS → FS)
    (env : Env) (q : SinkData) (y : Int) (config : List (String × CVal))
    (fs : FS) (fname p a : String) (fs' : FS)
    (hfmt : resolveSinkPath suffix env q y config = .ok fname) :
    (lookupA config "overwrite" = none → overwriteOf config = false) ∧
    (fname ∈ fs.files → overwriteOf config = false →
        sinkToFile suffix writer env q y config fs
          = (fs, .error ("File " ++ fname ++
              " already exists and overwrite argument has not been given.")) ∧
        sinkToFile suffix w₂ env q y config fs
          = sinkToFile suffix writer env q y config fs) ∧
    (fname ∈ fs.files → overwriteOf config = true →
        sinkToFile suffix writer env q y config fs
          = (writer q fname (residualParams config)
              (mkdirAncestors (parentDir fname) (unlinkFS fs fname)),
             .ok fname)) ∧
    (fname ∉ fs.files →
        sinkToFile suffix writer env q y config fs
          = (writer q fname (residualParams config)
              (mkdirAncestors (parentDir fname) fs),
             .ok fname)) ∧
    mkdirAncestors p (mkdirAncestors p fs') = mkdirAncestors p fs' ∧
    (a ∈ pathAncestors p → a ∈ (mkdirAncestors p fs').dirs) := by
  refine ⟨?_, ?_, ?_, ?_, ?_, ?_⟩
  · intro h
    simp [overwriteOf, h]
  · intro hmem hov
    constructor <;> simp [sinkToFile, hfmt, hmem, hov]
  · intro hmem hov
    simp [sinkToFile, hfmt, hmem, hov]
  · intro hmem
    simp [sinkToFile, hfmt, hmem]
  · simp [mkdirAncestors, addDirs_idem]
  · intro ha
    simpa [mkdirAncestors] using mem_addDirs_self a _ fs'.dirs ha

/-- Witness for C3: a call whose resolved path `out/data.csv` already
exists, with `overwrite` unset, fails with the already-exists error and
leaves the file system unchanged. -/
theorem sink_to_file_overwrite_policy_witness :
    sinkToFile ".csv" (fun _ _ _ fsx => fsx) (Env.mk "/cwd" "Results")
        (.frame emptyDF) 2020 [("filename", CVal.str "out/data.csv")]
        (FS.mk ["out/data.csv"] [])
      = (FS.mk ["out/data.csv"] [],
         .error ("File out/data.csv already exists and overwrite argument " ++
           "has not been given.")) :=
  ((sink_to_file_overwrite_policy ".csv" (fun _ _ _ fsx => fsx)
      (fun _ _ _ fsx => fsx) (Env.mk "/cwd" "Results") (.frame emptyDF) 2020
      [("filename", CVal.str "out/data.csv")] (FS.mk ["out/data.csv"] [])
      "out/data.csv" "a/b" "a" (FS.mk [] []) rfl).2.1 (by simp) rfl).1

/-- C7: the path resolution of a file sink substitutes exactly the
recognized placeholders — the assignment keys are precisely `cwd`,
`quantity`, `Quantity`, `sector`, `Sector`, `year`, `suffix`,
`default_output_dir`, an unrecognized placeholder raises, and the
default template (used whenever no `filename` is configured) resolves to
`default_output_dir/<Sector><year><Quantity><suffix>`; a missing
quantity name renders as the literal `"quantity"`; and for the
configuration `{sink: "csv", filename: "out/\x7byear\x7d.csv"}` with
sector `power`, the factory selects the csv writer and a call for year
2020 resolves the path `out/2020.csv`. -/
theorem sink_to_file_path_template (env : Env) (nm sector lsuffix : String)
    (y : Int) (q : SinkData) (df : DataFrame)
    (cols idx : List String) (rows : List DFRow)
    (writer : SinkData → String → List (String × CVal) → FS → FS) :
    filestringOf [] = defaultTemplate ∧
    keysA (recognizedAssignments env nm sector y lsuffix)
      = ["cwd", "quantity", "Quantity", "sector", "Sector", "year",
         "suffix", "default_output_dir"] ∧
    formatTemplate defaultTemplate
        (recognizedAssignments env nm sector y lsuffix)
      = .ok (env.defaultOutputDir ++ "/" ++ titleCase sector ++ toString y
             ++ titleCase nm ++ lsuffix) ∧
    formatTemplate "\x7bfoo\x7d" (recognizedAssignments env nm sector y lsuffix)
      = .error ("unknown placeholder: foo") ∧
    quantityNameOf (.frame (DataFrame.mk cols idx rows none)) = "quantity" ∧
    quantityNameOf (.array df none) = "quantity" ∧
    factory [("sink", CVal.str "csv"),
             ("filename", CVal.str "out/\x7byear\x7d.csv")] "power"
      = .ok (Resolved.mk .csvSink
          [("filename", CVal.str "out/\x7byear\x7d.csv"),
           ("sector", CVal.str "power")]) ∧
    (sinkToFile ".csv" writer env q 2020
        [("filename", CVal.str "out/\x7byear\x7d.csv"),
         ("sector", CVal.str "power")] (FS.mk [] [])).2
      = .ok "out/2020.csv" := by
  refine ⟨rfl, rfl, ?_, ?_, rfl, rfl, ?_, ?_⟩
  · simp [formatTemplate, defaultTemplate, fmtGo, recognizedAssignments,
      lookupA, lbrace, rbrace, String.append_assoc, Char.toString]
    rfl
  · simp [formatTemplate, fmtGo, recognizedAssignments, lookupA, lbrace,
      rbrace]
  · simp [factory, factoryWith, normalizedParams, remainingConfig, normalize,
      defaultSinkName, CVal.truthy, lookupA, eraseA, insertA, updateA,
      hasCommonKey, keysA, containsA, cvalStr?, OUTPUT_SINKS, pyLower]
  · rfl

/-- C6 counterexample: a caller-supplied `float_format` (`"%.2f"`) does
not override the default — the writer forces `"%.11f"` regardless. -/
theorem to_csv_float_format_counterexample :
    lookupA (to_csv (.frame emptyDF) "f.csv"
        [("float_format", CVal.str "%.2f")]).args
        "float_format" = some (.str "%.11f") ∧
    ¬ (lookupA (to_csv (.frame emptyDF) "f.csv"
        [("float_format", CVal.str "%.2f")]).args
        "float_format" = some (.str "%.2f")) := by
  constructor
  · simp [to_csv, insertA, lookupA]
  · simp [to_csv, insertA, lookupA]

end Muse
